import Mathlib

/-!
Verification development for a small NFL schedule scraper.

The program (src/main.py) consists of:
  * a pydantic model `Game` (week, season, url, home_team, away_team,
    home_score, away_score, completed);
  * `BaseScraper._get_static_soup`, which issues an httpx GET and parses
    the response body with BeautifulSoup;
  * `PfrScraper.scrape_schedule`, which iterates weeks 1..18 of the 2023
    season, fetches `years/2023/week_{n}.htm`, locates every
    `div.game_summary`, and extracts one game record per summary;
  * `save_to_csv`, which writes a comma-joined header line (keys of the
    first record) followed by one comma-joined line per record.

The embedding below models the parsed-HTML inputs as explicit tree data
(anchors, rows, tables, summaries, pages), Python exceptions as `Except`,
and Python `int(...)` string parsing explicitly.
-/

namespace Scraper

/-- Python values that can appear in a `model_dump` dictionary:
integers, strings, booleans and `None`. -/
inductive Value where
  | vInt (i : Int)
  | vStr (s : String)
  | vBool (b : Bool)
  | vNone
deriving DecidableEq

/-- Python `str(...)` applied to a dumped value (used by `save_to_csv`):
`str` of an int is its decimal form, `str(True) = "True"`,
`str(False) = "False"`, `str(None) = "None"`. -/
def Value.pyStr : Value → String
  | .vInt i => toString i
  | .vStr s => s
  | .vBool true => "True"
  | .vBool false => "False"
  | .vNone => "None"

/-- A Python dict as an ordered association list (Python dicts preserve
insertion order, and pydantic `model_dump` emits fields in declaration
order). -/
abbrev Dict := List (String × Value)

/-- The `Game` pydantic model: field order and defaults follow the class
declaration (`home_score`, `away_score` default `None`, `completed`
defaults `False`). -/
structure Game where
  week : Int
  season : Int
  url : String
  home_team : String
  away_team : String
  home_score : Option Int := none
  away_score : Option Int := none
  completed : Bool := false
deriving DecidableEq

/-- Embed an optional int the way `model_dump` serialises it. -/
def optIntValue : Option Int → Value
  | none => Value.vNone
  | some i => Value.vInt i

/-- `Game.model_dump()`: a dict whose keys are the model's fields in
declaration order. -/
def Game.model_dump (g : Game) : Dict :=
  [ ("week", Value.vInt g.week)
  , ("season", Value.vInt g.season)
  , ("url", Value.vStr g.url)
  , ("home_team", Value.vStr g.home_team)
  , ("away_team", Value.vStr g.away_team)
  , ("home_score", optIntValue g.home_score)
  , ("away_score", optIntValue g.away_score)
  , ("completed", Value.vBool g.completed) ]

/-- The fixed key list of every dumped `Game`. -/
def gameKeys : List String :=
  ["week", "season", "url", "home_team", "away_team",
   "home_score", "away_score", "completed"]

/-- Python `s.strip()` with no argument: remove whitespace characters
from both ends (modelled on the ASCII whitespace set). Implemented on
the character list so that it is fully computable. -/
def pyStrip (s : String) : String :=
  String.mk
    (((s.data.dropWhile Char.isWhitespace).reverse.dropWhile
        Char.isWhitespace).reverse)

/-- Python `str.lower()` on the ASCII range: map upper-case letters to
lower-case, leave everything else unchanged. -/
def pyCharLower (c : Char) : Char :=
  if 'A' ≤ c ∧ c ≤ 'Z' then Char.ofNat (c.toNat + 32) else c

/-- Python `s.lower()`. -/
def pyLower (s : String) : String := String.mk (s.data.map pyCharLower)

/-! ### Python `int(...)` on strings

`int(s)` strips surrounding whitespace, accepts one optional sign, then a
non-empty digit run in which single underscores may separate digits
(no leading, trailing, or doubled underscore); anything else raises
`ValueError`. -/

/-- Continue a digit run: after the first digit, each further character is
a digit or an underscore immediately followed by a digit. -/
def pyDigitsAux : List Char → Nat → Option Nat
  | [], acc => some acc
  | '_' :: c :: rest, acc =>
      if c.isDigit then pyDigitsAux rest (acc * 10 + (c.toNat - 48)) else none
  | c :: rest, acc =>
      if c.isDigit then pyDigitsAux rest (acc * 10 + (c.toNat - 48)) else none

/-- A Python `digitpart`: a digit, then digits with optional single
separating underscores. -/
def pyDigits : List Char → Option Nat
  | [] => none
  | c :: rest => if c.isDigit then pyDigitsAux rest (c.toNat - 48) else none

/-- Python `int(s)` for a base-10 string: `some n` when the parse
succeeds, `none` when `int` would raise `ValueError`. -/
def pyInt (s : String) : Option Int :=
  match (pyStrip s).data with
  | '-' :: rest => (pyDigits rest).map (fun n => -(n : Int))
  | '+' :: rest => (pyDigits rest).map (fun n => (n : Int))
  | l => (pyDigits l).map (fun n => (n : Int))

/-! ### Parsed-HTML model

`scrape_schedule` only inspects the soup through a fixed set of queries:
`find_all("div", class_="game_summary")`, `find("table", class_="teams")`,
`find_all("tr")`, `find_all("a")`, `find("a")`,
`find("td", class_="right")`, `.text`, `.get("href")`. The structures
below record exactly the results those queries can see, in document
order. -/

/-- An `<a>` element: its visible text and optional `href` attribute. -/
structure Anchor where
  text : String
  href : Option String
deriving DecidableEq

/-- A `<tr>` element, as seen by the extractor: its anchor descendants in
order, and the text of its `td class="right"` descendants in order. -/
structure Tr where
  anchors : List Anchor
  rightTds : List String
deriving DecidableEq

/-- A `<table class="teams">` element: its `<tr>` descendants in order. -/
structure TeamsTable where
  trs : List Tr
deriving DecidableEq

/-- A `<div class="game_summary">` element: its `table.teams` descendants
in order (`find` takes the first; a missing table makes `find` return
`None`). -/
structure GameSummary where
  teamsTables : List TeamsTable
deriving DecidableEq

/-- One fetched week page: its `div.game_summary` elements in page
order. -/
structure WeekPage where
  gameSummaries : List GameSummary
deriving DecidableEq

/-- The Python exceptions the extraction can raise, one constructor per
raise site:
  * `missingTeamsTable`: `teams` is `None`, so `teams.find_all` raises
    `AttributeError`;
  * `badRowCount`: `_, away_row, home_row = teams.find_all("tr")` raises
    `ValueError` unless there are exactly three rows;
  * `badAnchorCount`: `away, link = away_row.find_all("a")` raises
    `ValueError` unless there are exactly two anchors;
  * `missingHomeAnchor`: `home_row.find("a")` returned `None`, so
    `.text` raises `AttributeError`;
  * `missingAwayScoreCell` / `missingHomeScoreCell`: the
    `find("td", class_="right")` call returned `None`;
  * `missingUrlHref`: `link.get("href")` is `None`, and pydantic rejects
    `None` for the `str` field `url` (`ValidationError`);
  * `badScoreInt`: `int(...)` raised `ValueError` on a score string;
  * `fetchFailed`: the HTTP transport raised. -/
inductive ScrapeError where
  | missingTeamsTable
  | badRowCount
  | badAnchorCount
  | missingHomeAnchor
  | missingAwayScoreCell
  | missingHomeScoreCell
  | missingUrlHref
  | badScoreInt
  | fetchFailed
deriving DecidableEq

deriving instance DecidableEq for Except

/-- `true` exactly on `Except.ok`. -/
def isOk : Except ScrapeError α → Bool
  | .ok _ => true
  | .error _ => false

/-- The per-summary body of the `for summary in summaries` loop in
`PfrScraper.scrape_schedule`, lines 107-148 of src/main.py, up to and
including the construction of the `Game` model (the `model_dump` happens
at the call site). Each `match` arm mirrors one line of the source; see
`ScrapeError` for the raise sites. -/
def parseSummary (year week : Int) (summary : GameSummary) :
    Except ScrapeError Game :=
  -- teams = summary.find("table", class_="teams")
  match summary.teamsTables.head? with
  | none => .error .missingTeamsTable
  | some teams =>
    -- _, away_row, home_row = teams.find_all("tr")
    match teams.trs with
    | [_, away_row, home_row] =>
      -- away, link = away_row.find_all("a")
      match away_row.anchors with
      | [away_a, link] =>
        -- home = home_row.find("a"); home with .text below
        match home_row.anchors.head? with
        | none => .error .missingHomeAnchor
        | some home_a =>
          -- away_score = away_row.find("td", class_="right").text.strip()
          match away_row.rightTds.head? with
          | none => .error .missingAwayScoreCell
          | some away_td =>
            -- home_score = home_row.find("td", class_="right").text.strip()
            match home_row.rightTds.head? with
            | none => .error .missingHomeScoreCell
            | some home_td =>
              -- url=link.get("href"); pydantic rejects None for `url: str`
              match link.href with
              | none => .error .missingUrlHref
              | some url =>
                let home := pyStrip home_a.text
                let away := pyStrip away_a.text
                let away_score := pyStrip away_td
                let home_score := pyStrip home_td
                let game : Game :=
                  { week := week, season := year, url := url,
                    home_team := home, away_team := away }
                -- if home_score and away_score:
                if home_score = "" ∨ away_score = "" then .ok game
                else
                  -- game.away_score = int(away_score)
                  -- game.home_score = int(home_score)
                  -- game.completed = link.text.strip().lower() == "final"
                  match pyInt away_score, pyInt home_score with
                  | some a, some h =>
                      .ok { game with
                            away_score := some a, home_score := some h,
                            completed := (pyLower (pyStrip link.text) == "final") }
                  | _, _ => .error .badScoreInt
      | _ => .error .badAnchorCount
    | _ => .error .badRowCount

/-- Run an exception-raising body over a list, first exception wins; this
is the purification of the `for summary in summaries` loop. -/
def mapE (f : α → Except ScrapeError β) : List α → Except ScrapeError (List β)
  | [] => .ok []
  | x :: xs =>
    match f x with
    | .error e => .error e
    | .ok y =>
      match mapE f xs with
      | .error e => .error e
      | .ok ys => .ok (y :: ys)

/-- The games contributed by one fetched week page: every summary parsed
in page order, each dumped to a dict. -/
def scrapeWeek (year week : Int) (page : WeekPage) :
    Except ScrapeError (List Dict) :=
  match mapE (parseSummary year week) page.gameSummaries with
  | .error e => .error e
  | .ok gs => .ok (gs.map Game.model_dump)

/-- The f-string `f"years/{year}/week_{i + 1}.htm"`. -/
def weekUrl (year week : Int) : String :=
  "years/" ++ toString year ++ "/week_" ++ toString week ++ ".htm"

/-- `for i in range(18)` with week `i + 1`: the week numbers 1..18 in
ascending order. -/
def weeks2023 : List Int := (List.range 18).map (fun i => (i : Int) + 1)

/-- One iteration of the outer loop: fetch the week's soup
(`self.get_soup(url=f"years/{year}/week_{i + 1}.htm")`), then parse every
game summary on it. `getSoup` stands for the `get_soup` method. -/
def weekResult (getSoup : String → Except ScrapeError WeekPage)
    (year w : Int) : Except ScrapeError (List Dict) :=
  match getSoup (weekUrl year w) with
  | .error e => .error e
  | .ok page => scrapeWeek year w page

/-- The outer loop of `scrape_schedule` over a list of week numbers,
accumulating the games of all weeks in order. An exception anywhere
aborts the whole run, so no partial list is ever returned. -/
def scrapeWeeks (getSoup : String → Except ScrapeError WeekPage)
    (year : Int) : List Int → Except ScrapeError (List Dict)
  | [] => .ok []
  | w :: ws =>
    match weekResult getSoup year w with
    | .error e => .error e
    | .ok gs =>
      match scrapeWeeks getSoup year ws with
      | .error e => .error e
      | .ok rest => .ok (gs ++ rest)

/-- `PfrScraper.scrape_schedule`: year hardcoded to 2023, weeks 1..18. -/
def scrape_schedule (getSoup : String → Except ScrapeError WeekPage) :
    Except ScrapeError (List Dict) :=
  scrapeWeeks getSoup 2023 weeks2023

/-! ### The static fetch layer

`BaseScraper._get_static_soup` runs `page = self.client.get(url)` and
then `BeautifulSoup(page.content, "html.parser")`. httpx raises on
timeouts and connection failures, but `Client.get` returns normally for
every HTTP status (raising on 4xx/5xx requires an explicit
`raise_for_status()` call, which the source never makes), and
`html.parser` accepts any byte string. -/

/-- What the network did for one request. -/
inductive TransportResult where
  | timeout
  | connectError
  | response (status : Nat) (body : String)
deriving DecidableEq

/-- The exceptions httpx can raise from `client.get`. -/
inductive FetchError where
  | timeoutError
  | connectError
deriving DecidableEq

/-- An httpx response as the source uses it. -/
structure HttpResponse where
  status : Nat
  content : String
deriving DecidableEq

/-- `self.client.get(url)`: raises on timeout / connection failure,
returns the response object for every status code. -/
def clientGet (transport : String → TransportResult) (url : String) :
    Except FetchError HttpResponse :=
  match transport url with
  | .timeout => .error .timeoutError
  | .connectError => .error .connectError
  | .response s b => .ok { status := s, content := b }

/-- `BaseScraper._get_static_soup`: GET, then parse the body.
`parse` stands for `BeautifulSoup(·, "html.parser")`, a total function. -/
def get_static_soup (parse : String → WeekPage)
    (transport : String → TransportResult) (url : String) :
    Except FetchError WeekPage :=
  match clientGet transport url with
  | .error e => .error e
  | .ok page => .ok (parse page.content)

/-! ### `save_to_csv` -/

/-- Python `",".join(strs)`. -/
def joinComma : List String → String
  | [] => ""
  | [x] => x
  | x :: xs => x ++ "," ++ joinComma xs

/-- The `for line in csv_rows: file.write(...)` loop: each row is
comma-joined and newline-terminated; the file content is the
concatenation. -/
def writeRows : List (List String) → String
  | [] => ""
  | r :: rs => joinComma r ++ "\n" ++ writeRows rs

/-- `save_to_csv(filename, data)`: raises `ValueError` on an empty list
before the file is opened; otherwise writes header (keys of the first
record) then one line per record (its values through `str`). The result
is the written file, as (filename, content); an error means no file was
created or truncated. -/
def save_to_csv (filename : String) (data : List Dict) :
    Except String (String × String) :=
  match data with
  | [] => .error "data must not be empty"
  | d0 :: _ =>
    .ok (filename,
      writeRows (d0.map Prod.fst ::
        data.map (fun d => d.map (fun kv => kv.2.pyStr))))

/-! ### Reading the written file back as lines -/

/-- Split a character stream at newline characters (the segments between,
before and after the `\n` separators, like Python `s.split("\n")`). -/
def splitNl : List Char → List (List Char)
  | [] => [[]]
  | c :: rest =>
    if c = '\n' then [] :: splitNl rest
    else
      match splitNl rest with
      | [] => [[c]]
      | l :: ls => (c :: l) :: ls

/-- The lines of a newline-terminated file: every `\n`-terminated
segment. For a file written as N newline-terminated writes with no
embedded newline, this returns those N lines. -/
def fileLines (s : String) : List String :=
  ((splitNl s.data).dropLast).map (fun l => String.mk l)

/-- `s` contains no newline character. -/
def noNl (s : String) : Prop := '\n' ∉ s.data

instance (s : String) : Decidable (noNl s) := by
  unfold noNl; infer_instance

/-! ### Predicates used to state the claims -/

/-- The unplayed side of the spec's record invariant: both scores null
and `completed` false. -/
def unplayedRecord (g : Game) : Prop :=
  g.home_score = none ∧ g.away_score = none ∧ g.completed = false

/-- The spec's "fully scored with non-negative integers" side, exactly as
the claim states it. -/
def scoredNonNegRecord (g : Game) : Prop :=
  match g.home_score, g.away_score with
  | some h, some a => 0 ≤ h ∧ 0 ≤ a
  | _, _ => False

/-- Both scores present (with no sign constraint). -/
def scoredRecord (g : Game) : Prop :=
  ∃ h a, g.home_score = some h ∧ g.away_score = some a

/-- The record invariant exactly as the claim states it. -/
def claimedInvariant (g : Game) : Prop :=
  unplayedRecord g ∨ scoredNonNegRecord g

instance (g : Game) : Decidable (unplayedRecord g) := by
  unfold unplayedRecord; infer_instance

/-- A game-summary block whose teams table exists but does not have
exactly three rows. -/
def badRowShape (s : GameSummary) : Prop :=
  ∃ teams, s.teamsTables.head? = some teams ∧ teams.trs.length ≠ 3

/-- A block whose away row does not contain exactly two anchors. -/
def badAnchorShape (s : GameSummary) : Prop :=
  ∃ teams dr ar hr, s.teamsTables.head? = some teams ∧
    teams.trs = [dr, ar, hr] ∧ ar.anchors.length ≠ 2

/-- A block whose score texts are both non-empty (after stripping) and at
least one of them is not parseable by Python `int`. -/
def badScoreShape (s : GameSummary) : Prop :=
  ∃ teams dr ar hr atd htd, s.teamsTables.head? = some teams ∧
    teams.trs = [dr, ar, hr] ∧
    ar.rightTds.head? = some atd ∧ hr.rightTds.head? = some htd ∧
    pyStrip atd ≠ "" ∧ pyStrip htd ≠ "" ∧
    (pyInt (pyStrip atd) = none ∨ pyInt (pyStrip htd) = none)

/-! ### Concrete sample pages used for witnesses and counterexamples -/

/-- A well-shaped away row: team-name anchor, result link, one score
cell. -/
def awayRowOf (name linkText : String) (href : Option String)
    (td : String) : Tr :=
  { anchors := [{ text := name, href := none },
                { text := linkText, href := href }],
    rightTds := [td] }

/-- A well-shaped home row: one team-name anchor, one score cell. -/
def homeRowOf (name td : String) : Tr :=
  { anchors := [{ text := name, href := none }], rightTds := [td] }

/-- The date row (its contents are ignored by the extractor). -/
def dateRow : Tr := { anchors := [], rightTds := [] }

/-- A well-shaped game summary block. -/
def mkSummary (awayName linkText : String) (href : Option String)
    (awayTd homeName homeTd : String) : GameSummary :=
  { teamsTables :=
      [{ trs := [dateRow, awayRowOf awayName linkText href awayTd,
                 homeRowOf homeName homeTd] }] }

/-- An unplayed game: both score cells empty. -/
def sEmptyScores : GameSummary :=
  mkSummary "Bears" "preview" (some "/boxscores/b1.htm") "" "Packers" ""

/-- A completed game with scores 24 (away) and 17 (home) and result text
" FiNaL " (mixed case, surrounding whitespace). -/
def sFinal24 : GameSummary :=
  mkSummary "Bears" " FiNaL " (some "/boxscores/b2.htm") "24" "Packers" "17"

/-- A summary whose away score cell holds "-3": Python `int` accepts the
sign, producing a negative score. -/
def sNegScore : GameSummary :=
  mkSummary "Bears" "Final" (some "/boxscores/b3.htm") "-3" "Packers" "5"

/-- A summary with one non-empty unparseable score text ("abc") and one
empty score text: the `if home_score and away_score` guard is false, so
`int` is never called. -/
def sHalfGarbage : GameSummary :=
  mkSummary "Bears" "preview" (some "/boxscores/b4.htm") "abc" "Packers" ""

/-- A home row containing two anchors (not the single one the spec
expects). -/
def twoAnchorHomeRow : Tr :=
  { anchors := [{ text := "  Lions ", href := none },
                { text := "Tigers", href := none }],
    rightTds := ["7"] }

/-- A summary whose home row contains two anchors: `find("a")` takes the
first, no error. -/
def sTwoHomeAnchors : GameSummary :=
  { teamsTables :=
      [{ trs := [dateRow,
                 awayRowOf "Bears" "Final" (some "/boxscores/b5.htm") "3",
                 twoAnchorHomeRow] }] }

/-- A summary whose teams table has only two rows. -/
def sTwoRows : GameSummary :=
  { teamsTables :=
      [{ trs := [dateRow,
                 awayRowOf "Bears" "Final" (some "/boxscores/b6.htm") "3"] }] }

/-- A one-game page built from a single summary. -/
def pageOf (s : GameSummary) : WeekPage := { gameSummaries := [s] }

/-- A soup source serving the same page for every URL. -/
def constSoup (p : WeekPage) : String → Except ScrapeError WeekPage :=
  fun _ => .ok p

/-- The record the extractor builds from `sEmptyScores` (defaults kept:
scores `None`, `completed` `False`). -/
def gEmpty : Game :=
  { week := 1, season := 2023, url := "/boxscores/b1.htm",
    home_team := "Packers", away_team := "Bears" }

/-- The record the extractor builds from `sFinal24`. -/
def gFinal24 : Game :=
  { week := 1, season := 2023, url := "/boxscores/b2.htm",
    home_team := "Packers", away_team := "Bears",
    home_score := some 17, away_score := some 24, completed := true }

/-- The record the extractor builds from `sNegScore`: the away score is
the negative integer -3. -/
def gNegScore : Game :=
  { week := 1, season := 2023, url := "/boxscores/b3.htm",
    home_team := "Packers", away_team := "Bears",
    home_score := some 5, away_score := some (-3), completed := true }

/-- The record the extractor builds from `sHalfGarbage`: the unparseable
away text "abc" is never handed to `int` because the home text is empty,
so no error is raised and both scores stay `None`. -/
def gHalfGarbage : Game :=
  { week := 1, season := 2023, url := "/boxscores/b4.htm",
    home_team := "Packers", away_team := "Bears" }

/-- The record the extractor builds from `sTwoHomeAnchors`: the home team
name comes from the first of the two home-row anchors. -/
def gTwoHome : Game :=
  { week := 1, season := 2023, url := "/boxscores/b5.htm",
    home_team := "Lions", away_team := "Bears",
    home_score := some 7, away_score := some 3, completed := true }

/-- A trivial BeautifulSoup stand-in: parses any body to an empty page. -/
def parseNothing : String → WeekPage := fun _ => { gameSummaries := [] }

/-- A transport that answers every request with HTTP 404. -/
def transport404 : String → TransportResult :=
  fun _ => .response 404 "<html><body>Page Not Found</body></html>"

/-- A transport that times out on every request. -/
def transportTimeout : String → TransportResult := fun _ => .timeout

/-- A transport that refuses every connection. -/
def transportRefused : String → TransportResult := fun _ => .connectError

/-- A transport that answers every request with HTTP 200 and a fixed
body. -/
def transport200 : String → TransportResult :=
  fun _ => .response 200 "<html></html>"

/-- A full-season soup source: every week page shows the one completed
game `sFinal24`. -/
def soupOneGame : String → Except ScrapeError WeekPage :=
  constSoup (pageOf sFinal24)

/-- A soup source whose pages contain the malformed two-row summary. -/
def soupTwoRows : String → Except ScrapeError WeekPage :=
  constSoup (pageOf sTwoRows)

/-- A soup source whose pages contain the half-garbage summary. -/
def soupHalfGarbage : String → Except ScrapeError WeekPage :=
  constSoup (pageOf sHalfGarbage)

/-- A home row containing no anchor at all: `find("a")` returns `None`
and `.text` raises. -/
def noAnchorHomeRow : Tr := { anchors := [], rightTds := [""] }

/-- A summary whose home row has no anchor. -/
def sNoHomeAnchor : GameSummary :=
  { teamsTables :=
      [{ trs := [dateRow,
                 awayRowOf "Bears" "preview" (some "/boxscores/b7.htm") "",
                 noAnchorHomeRow] }] }

/-- The per-week record list on `soupOneGame`: the completed sample game
tagged with that week's number. -/
def weekGames (w : Int) : List Dict :=
  [Game.model_dump { gFinal24 with week := w }]

/-- The run result on `soupOneGame`: one completed game per week,
eighteen records in all. -/
def games18 : List Dict := (weeks2023.map weekGames).flatten

/-- Two uniform well-formed records, used to exercise the serializer. -/
def csvSampleData : List Dict := [gFinal24.model_dump, gEmpty.model_dump]

/-- A record holding a string value with an embedded newline. -/
def newlineRecord : Dict := [("a", Value.vStr "x\ny")]

/-! ## Helper lemmas -/

/-- Inversion: a successful parse exposes the exact markup shape the
extractor relied on and determines every field of the record. -/
theorem parseSummary_ok_shape {year week : Int} {s : GameSummary} {g : Game}
    (h : parseSummary year week s = .ok g) :
    ∃ teams dr ar hr aA lA hA atd htd u,
      s.teamsTables.head? = some teams ∧
      teams.trs = [dr, ar, hr] ∧
      ar.anchors = [aA, lA] ∧
      hr.anchors.head? = some hA ∧
      ar.rightTds.head? = some atd ∧
      hr.rightTds.head? = some htd ∧
      lA.href = some u ∧
      g.week = week ∧ g.season = year ∧ g.url = u ∧
      g.home_team = pyStrip hA.text ∧ g.away_team = pyStrip aA.text ∧
      (((pyStrip htd = "" ∨ pyStrip atd = "") ∧
          g.home_score = none ∧ g.away_score = none ∧ g.completed = false) ∨
        (pyStrip htd ≠ "" ∧ pyStrip atd ≠ "" ∧
          g.away_score = pyInt (pyStrip atd) ∧
          g.home_score = pyInt (pyStrip htd) ∧
          g.away_score.isSome ∧ g.home_score.isSome ∧
          g.completed = (pyLower (pyStrip lA.text) == "final"))) := by
  unfold parseSummary at h
  repeat' (first | split at h | simp only [] at h)
  all_goals (try (exact Except.noConfusion h))
  · cases h
    refine ⟨_, _, _, _, _, _, _, _, _, _, by assumption, by assumption,
      by assumption, by assumption, by assumption, by assumption,
      by assumption, rfl, rfl, rfl, rfl, rfl,
      Or.inl ⟨by assumption, rfl, rfl, rfl⟩⟩
  · cases h
    rename_i hne xa xh a hh hA hH
    exact ⟨_, _, _, _, _, _, _, _, _, _, by assumption, by assumption,
      by assumption, by assumption, by assumption, by assumption,
      by assumption, rfl, rfl, rfl, rfl, rfl,
      Or.inr ⟨fun hc => hne (Or.inl hc), fun hc => hne (Or.inr hc),
        hA.symm, hH.symm, rfl, rfl, rfl⟩⟩

/-- Forward characterization: on a block of the expected shape, the parse
reduces to the score-handling conditional. -/
theorem parseSummary_shaped {year week : Int} {s : GameSummary}
    {teams : TeamsTable} {dr ar hr : Tr} {aA lA hA : Anchor}
    {atd htd u : String}
    (h1 : s.teamsTables.head? = some teams)
    (h2 : teams.trs = [dr, ar, hr])
    (h3 : ar.anchors = [aA, lA])
    (h4 : hr.anchors.head? = some hA)
    (h5 : ar.rightTds.head? = some atd)
    (h6 : hr.rightTds.head? = some htd)
    (h7 : lA.href = some u) :
    parseSummary year week s =
      (if pyStrip htd = "" ∨ pyStrip atd = "" then
        .ok { week := week, season := year, url := u,
              home_team := pyStrip hA.text, away_team := pyStrip aA.text }
      else
        match pyInt (pyStrip atd), pyInt (pyStrip htd) with
        | some a, some h =>
          .ok { week := week, season := year, url := u,
                home_team := pyStrip hA.text, away_team := pyStrip aA.text,
                away_score := some a, home_score := some h,
                completed := (pyLower (pyStrip lA.text) == "final") }
        | _, _ => .error .badScoreInt) := by
  simp only [parseSummary, h1, h2, h3, h4, h5, h6, h7]

/-- A successful `mapE` relates inputs and outputs pointwise, in order. -/
theorem mapE_ok_forall₂ {α β : Type} {f : α → Except ScrapeError β} :
    ∀ {xs : List α} {ys : List β}, mapE f xs = .ok ys →
      List.Forall₂ (fun x y => f x = .ok y) xs ys := by
  intro xs
  induction xs with
  | nil =>
    intro ys h
    unfold mapE at h
    cases h
    exact List.Forall₂.nil
  | cons x xs ih =>
    intro ys h
    unfold mapE at h
    split at h
    · exact Except.noConfusion h
    · rename_i y hy
      split at h
      · exact Except.noConfusion h
      · rename_i ys' hys
        cases h
        exact List.Forall₂.cons hy (ih hys)

/-- Every left element of a `Forall₂` has a related right element. -/
theorem forall₂_mem_left {α β : Type} {R : α → β → Prop} {xs : List α}
    {ys : List β} (h : List.Forall₂ R xs ys) :
    ∀ x ∈ xs, ∃ y ∈ ys, R x y := by
  induction h with
  | nil => intro x hx; cases hx
  | cons hR hF ih =>
    intro x hx
    rcases List.mem_cons.mp hx with rfl | hx
    · exact ⟨_, List.mem_cons_self _ _, hR⟩
    · obtain ⟨y, hy, hxy⟩ := ih x hx
      exact ⟨y, List.mem_cons_of_mem _ hy, hxy⟩

/-- Every right element of a `Forall₂` has a related left element. -/
theorem forall₂_mem_right {α β : Type} {R : α → β → Prop} {xs : List α}
    {ys : List β} (h : List.Forall₂ R xs ys) :
    ∀ y ∈ ys, ∃ x ∈ xs, R x y := by
  induction h with
  | nil => intro y hy; cases hy
  | cons hR hF ih =>
    intro y hy
    rcases List.mem_cons.mp hy with rfl | hy
    · exact ⟨_, List.mem_cons_self _ _, hR⟩
    · obtain ⟨x, hx, hxy⟩ := ih y hy
      exact ⟨x, List.mem_cons_of_mem _ hx, hxy⟩

/-- A successful week parse relates the page's summaries to the emitted
dicts pointwise, in page order. -/
theorem scrapeWeek_ok_forall₂ {year week : Int} {page : WeekPage}
    {l : List Dict} (h : scrapeWeek year week page = .ok l) :
    List.Forall₂
      (fun s d => ∃ g, parseSummary year week s = .ok g ∧ d = g.model_dump)
      page.gameSummaries l := by
  unfold scrapeWeek at h
  split at h
  · exact Except.noConfusion h
  · rename_i gs hgs
    cases h
    rw [List.forall₂_map_right_iff]
    have h2 := mapE_ok_forall₂ hgs
    exact h2.imp (fun _ _ hg => ⟨_, hg, rfl⟩)

/-- A run that returns a list produced a week result for every week. -/
theorem scrapeWeeks_ok_weekResult
    {getSoup : String → Except ScrapeError WeekPage} {year : Int} :
    ∀ {ws : List Int} {l : List Dict}, scrapeWeeks getSoup year ws = .ok l →
      ∀ w ∈ ws, ∃ lw, weekResult getSoup year w = .ok lw := by
  intro ws
  induction ws with
  | nil => intro l h w hw; cases hw
  | cons w' ws ih =>
    intro l h w hw
    unfold scrapeWeeks at h
    split at h
    · exact Except.noConfusion h
    · rename_i gs hgs
      split at h
      · exact Except.noConfusion h
      · rename_i rest hrest
        cases h
        rcases List.mem_cons.mp hw with rfl | hw
        · exact ⟨gs, hgs⟩
        · exact ih hrest w hw

/-- Provenance: every dict in a successful run comes from one summary of
one fetched week page. -/
theorem scrapeWeeks_provenance
    {getSoup : String → Except ScrapeError WeekPage} {year : Int} :
    ∀ {ws : List Int} {l : List Dict}, scrapeWeeks getSoup year ws = .ok l →
      ∀ d ∈ l, ∃ w ∈ ws, ∃ page, getSoup (weekUrl year w) = .ok page ∧
        ∃ s ∈ page.gameSummaries, ∃ g, parseSummary year w s = .ok g ∧
          d = g.model_dump := by
  intro ws
  induction ws with
  | nil =>
    intro l h d hd
    unfold scrapeWeeks at h
    cases h
    cases hd
  | cons w' ws ih =>
    intro l h d hd
    unfold scrapeWeeks at h
    split at h
    · exact Except.noConfusion h
    · rename_i gs hgs
      split at h
      · exact Except.noConfusion h
      · rename_i rest hrest
        cases h
        rcases List.mem_append.mp hd with hdg | hdr
        · unfold weekResult at hgs
          split at hgs
          · exact Except.noConfusion hgs
          · rename_i page hpage
            obtain ⟨s, hs, hrel⟩ :=
              forall₂_mem_right (scrapeWeek_ok_forall₂ hgs) d hdg
            exact ⟨w', List.mem_cons_self _ _, page, hpage, s, hs, hrel⟩
        · obtain ⟨w, hw, rest'⟩ := ih hrest d hdr
          exact ⟨w, List.mem_cons_of_mem _ hw, rest'⟩

/-- In a successful run, every summary of every fetched week page parsed
successfully: no block was skipped. -/
theorem scrapeWeeks_all_parse
    {getSoup : String → Except ScrapeError WeekPage} {year : Int} :
    ∀ {ws : List Int} {l : List Dict}, scrapeWeeks getSoup year ws = .ok l →
      ∀ w ∈ ws, ∀ page, getSoup (weekUrl year w) = .ok page →
        ∀ s ∈ page.gameSummaries, ∃ g, parseSummary year w s = .ok g := by
  intro ws
  induction ws with
  | nil => intro l h w hw; cases hw
  | cons w' ws ih =>
    intro l h w hw page hpage s hs
    unfold scrapeWeeks at h
    split at h
    · exact Except.noConfusion h
    · rename_i gs hgs
      split at h
      · exact Except.noConfusion h
      · rename_i rest hrest
        cases h
        rcases List.mem_cons.mp hw with rfl | hw
        · unfold weekResult at hgs
          split at hgs
          · exact Except.noConfusion hgs
          · rename_i page' hpage'
            cases hpage'.symm.trans hpage
            obtain ⟨d, hd, g, hg, _⟩ :=
              forall₂_mem_left (scrapeWeek_ok_forall₂ hgs) s hs
            exact ⟨g, hg⟩
        · exact ih hrest w hw page hpage s hs

/-- When every week result is known, the run returns the concatenation of
the week lists in week order. -/
theorem scrapeWeeks_flatten
    {getSoup : String → Except ScrapeError WeekPage} {year : Int}
    {ls : Int → List Dict} :
    ∀ {ws : List Int}, (∀ w ∈ ws, weekResult getSoup year w = .ok (ls w)) →
      scrapeWeeks getSoup year ws = .ok ((ws.map ls).flatten) := by
  intro ws
  induction ws with
  | nil => intro _; rfl
  | cons w' ws ih =>
    intro h
    unfold scrapeWeeks
    rw [h w' (List.mem_cons_self _ _), ih (fun w hw => h w (List.mem_cons_of_mem _ hw))]
    simp [List.flatten_cons]

/-- A malformed block (wrong row count, wrong away-anchor count, or two
non-empty score texts with an unparseable one) never parses. -/
theorem parseSummary_bad_not_ok {year week : Int} {s : GameSummary}
    (hbad : badRowShape s ∨ badAnchorShape s ∨ badScoreShape s) :
    ∀ g, parseSummary year week s ≠ .ok g := by
  intro g h
  obtain ⟨teams, dr, ar, hr, aA, lA, hA, atd, htd, u,
    i1, i2, i3, i4, i5, i6, i7, _, _, _, _, _, hdisj⟩ := parseSummary_ok_shape h
  rcases hbad with ⟨t, ht, hlen⟩ | ⟨t, d, a, hh, ht, htrs, hlen⟩ |
    ⟨t, d, a, hh, atd', htd', ht, htrs, ha5, ha6, hne1, hne2, hbad⟩
  · cases (Option.some.inj (ht.symm.trans i1))
    rw [i2] at hlen
    exact hlen rfl
  · cases (Option.some.inj (ht.symm.trans i1))
    have := htrs.symm.trans i2
    injection this with _ this
    injection this with ha _
    rw [ha, i3] at hlen
    exact hlen rfl
  · cases (Option.some.inj (ht.symm.trans i1))
    have := htrs.symm.trans i2
    injection this with _ this
    injection this with ha this
    injection this with hhh _
    subst ha
    subst hhh
    cases (Option.some.inj (ha5.symm.trans i5))
    cases (Option.some.inj (ha6.symm.trans i6))
    rcases hdisj with ⟨hor, _⟩ | ⟨hne1', hne2', haw, hho, hawS, hhoS, _⟩
    · rcases hor with hc | hc
      · exact hne2 hc
      · exact hne1 hc
    · rcases hbad with hc | hc
      · rw [haw] at hawS
        rw [hc] at hawS
        exact Bool.noConfusion hawS
      · rw [hho] at hhoS
        rw [hc] at hhoS
        exact Bool.noConfusion hhoS

/-- Rebuilding a string from its characters is the identity. -/
theorem string_mk_data (s : String) : String.mk s.data = s := rfl

/-- `joinComma` of newline-free cells is newline-free. -/
theorem noNl_joinComma {cells : List String}
    (h : ∀ c ∈ cells, noNl c) : noNl (joinComma cells) := by
  induction cells with
  | nil => intro hc; cases hc
  | cons c cs ih =>
    cases cs with
    | nil => exact h c (List.mem_cons_self _ _)
    | cons c' cs' =>
      unfold joinComma
      intro hmem
      rw [String.data_append, String.data_append] at hmem
      rcases List.mem_append.mp hmem with hmem | hmem
      · rcases List.mem_append.mp hmem with hmem | hmem
        · exact h c (List.mem_cons_self _ _) hmem
        · exact absurd hmem (by decide)
      · exact ih (fun x hx => h x (List.mem_cons_of_mem _ hx)) hmem

/-- Splitting at newlines passes over a newline-free segment followed by
a separator. -/
theorem splitNl_append {cs : List Char} (h : '\n' ∉ cs) :
    ∀ rest : List Char, splitNl (cs ++ '\n' :: rest) = cs :: splitNl rest := by
  induction cs with
  | nil => intro rest; rfl
  | cons c cs ih =>
    intro rest
    have hc : ¬(c = '\n') := fun hh => h (hh ▸ List.mem_cons_self _ _)
    have hcs : '\n' ∉ cs := fun hh => h (List.mem_cons_of_mem _ hh)
    rw [List.cons_append, splitNl, if_neg hc, ih hcs rest]

/-- `splitNl` never returns the empty list. -/
theorem splitNl_ne_nil (cs : List Char) : splitNl cs ≠ [] := by
  induction cs with
  | nil => simp [splitNl]
  | cons c cs ih =>
    unfold splitNl
    split
    · simp
    · split
      · simp
      · simp

/-- Reading back a file written as newline-free rows returns exactly
those rows. -/
theorem fileLines_writeRows {rows : List (List String)}
    (h : ∀ r ∈ rows, noNl (joinComma r)) :
    fileLines (writeRows rows) = rows.map joinComma := by
  induction rows with
  | nil => rfl
  | cons r rs ih =>
    have hr : '\n' ∉ (joinComma r).data := h r (List.mem_cons_self _ _)
    have hdata : (writeRows (r :: rs)).data
        = (joinComma r).data ++ '\n' :: (writeRows rs).data := by
      show (joinComma r ++ "\n" ++ writeRows rs).data = _
      rw [String.data_append, String.data_append]
      rw [List.append_assoc]
      rfl
    unfold fileLines
    rw [hdata, splitNl_append hr, List.dropLast_cons_of_ne_nil (splitNl_ne_nil _)]
    simp only [List.map_cons]
    rw [string_mk_data]
    congr 1
    exact ih (fun x hx => h x (List.mem_cons_of_mem _ hx))

/-! ## Claims -/

/-- C8: invoking the serializer on an empty record list raises the
validation error "data must not be empty"; the error is raised before any
file is opened or truncated, so no (filename, content) pair is ever
produced and the filesystem is untouched. -/
theorem claim8_empty_data_error (filename : String) :
    save_to_csv filename [] = .error "data must not be empty" := rfl

/-- C8 witness: the serializer call of the script entrypoint, given an
empty list, fails with the validation error. -/
theorem claim8_witness :
    save_to_csv "2023_nfl_schedule.csv" [] = .error "data must not be empty" :=
  claim8_empty_data_error "2023_nfl_schedule.csv"

/-- C9 counterexample: a non-2xx response status does not surface as a
fetch error. The source never calls `raise_for_status()`, so httpx
returns the 404 response normally and its body is parsed as HTML: the
static fetch returns a soup instead of raising. -/
theorem claim9_counterexample :
    get_static_soup parseNothing transport404 "years/2023/week_1.htm" =
      .ok { gameSummaries := [] } ∧
    ¬(200 ≤ 404 ∧ 404 ≤ 299) := by
  exact ⟨rfl, by decide⟩

/-- C9 (amended): in static fetch mode a timeout or a connection failure
surfaces as a fetch error to the caller and nothing catches it, but a
response with a non-2xx status does not raise: its body is parsed as HTML
and returned as a soup. -/
theorem claim9_amended (parse : String → WeekPage)
    (transport : String → TransportResult) (url : String) :
    (transport url = .timeout →
      get_static_soup parse transport url = .error .timeoutError) ∧
    (transport url = .connectError →
      get_static_soup parse transport url = .error .connectError) ∧
    (∀ status body, transport url = .response status body →
      get_static_soup parse transport url = .ok (parse body)) := by
  refine ⟨fun h => ?_, fun h => ?_, fun status body h => ?_⟩ <;>
    · unfold get_static_soup clientGet
      rw [h]

/-- C9 witness: the three transport behaviors observed on concrete
transports at the week-1 URL. -/
theorem claim9_witness :
    (get_static_soup parseNothing transportTimeout "years/2023/week_1.htm" =
      .error .timeoutError) ∧
    (get_static_soup parseNothing transportRefused "years/2023/week_1.htm" =
      .error .connectError) ∧
    (get_static_soup parseNothing transport200 "years/2023/week_1.htm" =
      .ok (parseNothing "<html></html>")) :=
  ⟨(claim9_amended parseNothing transportTimeout "years/2023/week_1.htm").1 rfl,
   (claim9_amended parseNothing transportRefused "years/2023/week_1.htm").2.1 rfl,
   (claim9_amended parseNothing transport200 "years/2023/week_1.htm").2.2
     200 "<html></html>" rfl⟩

/-- C7 counterexample: a record value containing a newline breaks the
"exactly N+1 lines" contract. One record (N = 1) whose value is
"x\ny" yields a file with 3 lines, not 2. -/
theorem claim7_counterexample :
    save_to_csv "games.csv" [newlineRecord] = .ok ("games.csv", "a\nx\ny\n") ∧
    (fileLines "a\nx\ny\n").length = 3 ∧ ¬((3 : Nat) = 1 + 1) := by
  exact ⟨by decide, by decide, by decide⟩

/-- C7 (amended): for every non-empty list of N uniform records whose
keys and value string-representations contain no newline character, the
serializer writes a file of exactly N+1 lines: the first line is the
comma-joined keys of the first record, and each subsequent line is the
comma-joined string representation of the corresponding record's values
in key order. -/
theorem claim7_amended (filename : String) (d0 : Dict) (ds : List Dict)
    (huniform : ∀ d ∈ d0 :: ds, d.map Prod.fst = d0.map Prod.fst)
    (hkeys : ∀ k ∈ d0.map Prod.fst, noNl k)
    (hvals : ∀ d ∈ d0 :: ds, ∀ kv ∈ d, noNl kv.2.pyStr) :
    ∃ content, save_to_csv filename (d0 :: ds) = .ok (filename, content) ∧
      fileLines content =
        joinComma (d0.map Prod.fst) ::
          (d0 :: ds).map (fun d => joinComma (d.map (fun kv => kv.2.pyStr))) ∧
      (fileLines content).length = (d0 :: ds).length + 1 := by
  have hnl : ∀ r ∈ (d0.map Prod.fst ::
      (d0 :: ds).map (fun d => d.map (fun kv => kv.2.pyStr))),
      noNl (joinComma r) := by
    intro r hr
    rcases List.mem_cons.mp hr with rfl | hr
    · exact noNl_joinComma hkeys
    · obtain ⟨d, hd, rfl⟩ := List.mem_map.mp hr
      refine noNl_joinComma ?_
      intro c hc
      obtain ⟨kv, hkv, rfl⟩ := List.mem_map.mp hc
      exact hvals d hd kv hkv
  refine ⟨_, rfl, ?_, ?_⟩
  · rw [fileLines_writeRows hnl, List.map_cons, List.map_map]
    rfl
  · rw [fileLines_writeRows hnl]
    simp

/-- C7 witness: serializing the two uniform sample records (a completed
game and an unplayed one) yields a 3-line file with the game-key header
first. -/
theorem claim7_witness :
    ∃ content,
      save_to_csv "2023_nfl_schedule.csv" (gFinal24.model_dump :: [gEmpty.model_dump]) =
        .ok ("2023_nfl_schedule.csv", content) ∧
      fileLines content =
        joinComma (gFinal24.model_dump.map Prod.fst) ::
          (gFinal24.model_dump :: [gEmpty.model_dump]).map
            (fun d => joinComma (d.map (fun kv => kv.2.pyStr))) ∧
      (fileLines content).length =
        (gFinal24.model_dump :: [gEmpty.model_dump]).length + 1 :=
  claim7_amended "2023_nfl_schedule.csv" gFinal24.model_dump [gEmpty.model_dump]
    (by decide) (by decide) (by decide)

/-- C1 counterexample: the "non-negative" part of the invariant fails.
On a block whose away score cell reads "-3", Python `int` accepts the
sign and the extractor produces a record whose away score is the negative
integer -3, so the record is neither unplayed nor scored-non-negative. -/
theorem claim1_counterexample :
    parseSummary 2023 1 sNegScore = .ok gNegScore ∧
    gNegScore.away_score = some (-3) ∧ ¬claimedInvariant gNegScore := by
  refine ⟨by decide, by decide, fun h => ?_⟩
  rcases h with ⟨h1, h2, h3⟩ | h2
  · exact Option.noConfusion h1
  · exact absurd h2.2 (by decide)

/-- C1 (amended): every record produced by the schedule extractor is
either fully unplayed (both scores null, completed false) or fully scored
(both scores present as integers); no input HTML yields a record with
exactly one score populated, and when both score cell strings are empty
the record has no scores and completed false. -/
theorem claim1_amended :
    (∀ (getSoup : String → Except ScrapeError WeekPage) (l : List Dict),
      scrape_schedule getSoup = .ok l →
      ∀ d ∈ l, ∃ g : Game, d = g.model_dump ∧
        (unplayedRecord g ∨ scoredRecord g)) ∧
    parseSummary 2023 1 sEmptyScores = .ok gEmpty ∧
    gEmpty.home_score = none ∧ gEmpty.away_score = none ∧
    gEmpty.completed = false := by
  refine ⟨?_, by decide, by decide, by decide, by decide⟩
  intro getSoup l h d hd
  obtain ⟨w, hw, page, hpage, s, hs, g, hg, rfl⟩ :=
    scrapeWeeks_provenance h d hd
  refine ⟨g, rfl, ?_⟩
  obtain ⟨_, _, _, _, _, _, _, _, _, _, _, _, _, _, _, _, _,
    _, _, _, _, _, hdisj⟩ := parseSummary_ok_shape hg
  rcases hdisj with ⟨_, hh, ha, hc⟩ | ⟨_, _, _, _, haS, hhS, _⟩
  · exact Or.inl ⟨hh, ha, hc⟩
  · obtain ⟨hv, hhv⟩ := Option.isSome_iff_exists.mp hhS
    obtain ⟨av, hav⟩ := Option.isSome_iff_exists.mp haS
    exact Or.inr ⟨hv, av, hhv, hav⟩

/-- C1 witness: the record of the completed week-1 sample game, produced
by a full 18-week run, satisfies the (amended) invariant. -/
theorem claim1_witness :
    ∃ g : Game, Game.model_dump { gFinal24 with week := 1 } = g.model_dump ∧
      (unplayedRecord g ∨ scoredRecord g) :=
  claim1_amended.1 soupOneGame games18 (by decide)
    (Game.model_dump { gFinal24 with week := 1 }) (by decide)

/-- C2: for a block of the expected shape that builds a record, both
scores are attached iff both stripped score strings are non-empty, in
which case they are the `int`-parses of those strings and `completed` is
true exactly when the stripped, lowercased result-link text is the
literal "final"; concretely, away "24" / home "17" / link " FiNaL "
yields away 24, home 17, completed true. -/
theorem claim2_scores_iff :
    (∀ (year week : Int) (s : GameSummary) (teams : TeamsTable)
        (dr ar hr : Tr) (aA lA hA : Anchor) (atd htd u : String) (g : Game),
      s.teamsTables.head? = some teams → teams.trs = [dr, ar, hr] →
      ar.anchors = [aA, lA] → hr.anchors.head? = some hA →
      ar.rightTds.head? = some atd → hr.rightTds.head? = some htd →
      lA.href = some u → parseSummary year week s = .ok g →
      ((pyStrip atd ≠ "" ∧ pyStrip htd ≠ "") ↔
        (g.away_score.isSome ∧ g.home_score.isSome)) ∧
      (pyStrip atd ≠ "" → pyStrip htd ≠ "" →
        g.away_score = pyInt (pyStrip atd) ∧
        g.home_score = pyInt (pyStrip htd) ∧
        (g.completed = true ↔ pyLower (pyStrip lA.text) = "final"))) ∧
    parseSummary 2023 1 sFinal24 = .ok gFinal24 ∧
    gFinal24.away_score = some 24 ∧ gFinal24.home_score = some 17 ∧
    gFinal24.completed = true := by
  refine ⟨?_, by decide, by decide, by decide, by decide⟩
  intro year week s teams dr ar hr aA lA hA atd htd u g
    h1 h2 h3 h4 h5 h6 h7 hOk
  rw [parseSummary_shaped h1 h2 h3 h4 h5 h6 h7] at hOk
  split at hOk
  · rename_i hcond
    cases hOk
    constructor
    · constructor
      · rintro ⟨ha, hh⟩
        rcases hcond with hc | hc
        · exact absurd hc hh
        · exact absurd hc ha
      · rintro ⟨hs, _⟩
        exact Bool.noConfusion hs
    · intro ha hh
      rcases hcond with hc | hc
      · exact absurd hc hh
      · exact absurd hc ha
  · rename_i hcond
    split at hOk
    · rename_i a hv hA' hH'
      cases hOk
      refine ⟨⟨fun _ => ⟨rfl, rfl⟩,
        fun _ => ⟨fun hc => hcond (Or.inr hc), fun hc => hcond (Or.inl hc)⟩⟩,
        fun _ _ => ⟨hA'.symm, hH'.symm, ?_⟩⟩
      exact beq_iff_eq
    · exact Except.noConfusion hOk

/-- C2 witness: the score-attachment biconditional instantiated at the
completed sample game. -/
theorem claim2_witness :
    ((pyStrip "24" ≠ "" ∧ pyStrip "17" ≠ "") ↔
      (gFinal24.away_score.isSome ∧ gFinal24.home_score.isSome)) ∧
    (pyStrip "24" ≠ "" → pyStrip "17" ≠ "" →
      gFinal24.away_score = pyInt (pyStrip "24") ∧
      gFinal24.home_score = pyInt (pyStrip "17") ∧
      (gFinal24.completed = true ↔ pyLower (pyStrip " FiNaL ") = "final")) :=
  claim2_scores_iff.1 2023 1 sFinal24 _ dateRow
    (awayRowOf "Bears" " FiNaL " (some "/boxscores/b2.htm") "24")
    (homeRowOf "Packers" "17") _ _ _ "24" "17" "/boxscores/b2.htm" gFinal24
    rfl rfl rfl rfl rfl rfl rfl (by decide)

/-- C3 counterexample: a block with a non-empty score text that is not
parseable as an integer ("abc") does not abort the run when the other
score text is empty: the truthiness guard short-circuits before `int` is
called, the block yields an unplayed record, and a full 18-week run over
pages containing this block returns a list normally. -/
theorem claim3_counterexample :
    pyStrip "abc" ≠ "" ∧ pyInt (pyStrip "abc") = none ∧
    parseSummary 2023 1 sHalfGarbage = .ok gHalfGarbage ∧
    isOk (scrape_schedule soupHalfGarbage) = true := by
  exact ⟨by decide, by decide, by decide, by decide⟩

/-- C3 (amended): a game-summary block whose teams table does not contain
exactly three rows, or whose away row does not contain exactly two link
elements, or whose score texts are both non-empty with at least one not
parseable as an integer, makes the whole run fail: the extractor never
returns a record list. -/
theorem claim3_amended (getSoup : String → Except ScrapeError WeekPage)
    (w : Int) (page : WeekPage) (s : GameSummary)
    (hw : w ∈ weeks2023) (hpage : getSoup (weekUrl 2023 w) = .ok page)
    (hs : s ∈ page.gameSummaries)
    (hbad : badRowShape s ∨ badAnchorShape s ∨ badScoreShape s) :
    isOk (scrape_schedule getSoup) = false := by
  cases hres : scrape_schedule getSoup with
  | error e => rfl
  | ok l =>
    obtain ⟨g, hg⟩ := scrapeWeeks_all_parse hres w hw page hpage s hs
    exact absurd hg (parseSummary_bad_not_ok hbad g)

/-- C3 witness: a run over pages containing the two-row teams table fails
as a whole. -/
theorem claim3_witness : isOk (scrape_schedule soupTwoRows) = false :=
  claim3_amended soupTwoRows 1 (pageOf sTwoRows) sTwoRows (by decide) rfl
    (by decide) (Or.inl ⟨_, rfl, by decide⟩)

/-- C4 counterexample: a home row with two link elements does not make
the extractor fail; it silently takes the first link's trimmed text as
the home team name. -/
theorem claim4_counterexample :
    twoAnchorHomeRow.anchors.length = 2 ∧
    twoAnchorHomeRow.anchors.length ≠ 1 ∧
    parseSummary 2023 1 sTwoHomeAnchors = .ok gTwoHome ∧
    gTwoHome.home_team = "Lions" := by
  exact ⟨by decide, by decide, by decide, by decide⟩

/-- C4 (amended): the extractor requires at least one link in the home
row (failing only when there is none) and takes the trimmed text of the
first home-row link as the home team name; the away row must contain
exactly two links, the first giving the away team name and the second's
href attribute the game url. -/
theorem claim4_amended :
    (∀ (year week : Int) (s : GameSummary) (teams : TeamsTable)
        (dr ar hr : Tr),
      s.teamsTables.head? = some teams → teams.trs = [dr, ar, hr] →
      hr.anchors = [] → isOk (parseSummary year week s) = false) ∧
    (∀ (year week : Int) (s : GameSummary) (teams : TeamsTable)
        (dr ar hr : Tr),
      s.teamsTables.head? = some teams → teams.trs = [dr, ar, hr] →
      ar.anchors.length ≠ 2 → isOk (parseSummary year week s) = false) ∧
    (∀ (year week : Int) (s : GameSummary) (teams : TeamsTable)
        (dr ar hr : Tr) (aA lA hA : Anchor) (atd htd u : String) (g : Game),
      s.teamsTables.head? = some teams → teams.trs = [dr, ar, hr] →
      ar.anchors = [aA, lA] → hr.anchors.head? = some hA →
      ar.rightTds.head? = some atd → hr.rightTds.head? = some htd →
      lA.href = some u → parseSummary year week s = .ok g →
      g.home_team = pyStrip hA.text ∧ g.away_team = pyStrip aA.text ∧
      g.url = u) := by
  refine ⟨?_, ?_, ?_⟩
  · intro year week s teams dr ar hr h1 h2 hE
    simp only [parseSummary, h1, h2, hE, List.head?_nil]
    split <;> rfl
  · intro year week s teams dr ar hr h1 h2 hN
    simp only [parseSummary, h1, h2]
    split
    · rename_i aA lA heq
      exact absurd (by rw [heq]; rfl) hN
    · rfl
  · intro year week s teams dr ar hr aA lA hA atd htd u g
      h1 h2 h3 h4 h5 h6 h7 hOk
    rw [parseSummary_shaped h1 h2 h3 h4 h5 h6 h7] at hOk
    split at hOk
    · cases hOk
      exact ⟨rfl, rfl, rfl⟩
    · split at hOk
      · cases hOk
        exact ⟨rfl, rfl, rfl⟩
      · exact Except.noConfusion hOk

/-- C4 witness: a home row without links aborts the parse, while on the
completed sample game the home name, away name and url come from the
first home link, the first away link, and the second away link's href. -/
theorem claim4_witness :
    isOk (parseSummary 2023 1 sNoHomeAnchor) = false ∧
    (gFinal24.home_team = pyStrip "Packers" ∧
     gFinal24.away_team = pyStrip "Bears" ∧
     gFinal24.url = "/boxscores/b2.htm") :=
  ⟨claim4_amended.1 2023 1 sNoHomeAnchor _ dateRow
      (awayRowOf "Bears" "preview" (some "/boxscores/b7.htm") "")
      noAnchorHomeRow rfl rfl rfl,
   claim4_amended.2.2 2023 1 sFinal24 _ dateRow
      (awayRowOf "Bears" " FiNaL " (some "/boxscores/b2.htm") "24")
      (homeRowOf "Packers" "17") _ _ _ "24" "17" "/boxscores/b2.htm" gFinal24
      rfl rfl rfl rfl rfl rfl rfl (by decide)⟩

/-- C5: the extractor iterates the weeks 1..18 in order, requesting
exactly the path years/2023/week_n.htm for week n with the season
hardcoded to 2023, and every emitted record carries season 2023 and the
week number of the page it came from. -/
theorem claim5_weeks_and_season :
    weeks2023 = [1, 2, 3, 4, 5, 6, 7, 8, 9, 10, 11, 12, 13, 14, 15, 16, 17, 18] ∧
    weeks2023.map (fun w => weekUrl 2023 w) =
      ["years/2023/week_1.htm", "years/2023/week_2.htm",
       "years/2023/week_3.htm", "years/2023/week_4.htm",
       "years/2023/week_5.htm", "years/2023/week_6.htm",
       "years/2023/week_7.htm", "years/2023/week_8.htm",
       "years/2023/week_9.htm", "years/2023/week_10.htm",
       "years/2023/week_11.htm", "years/2023/week_12.htm",
       "years/2023/week_13.htm", "years/2023/week_14.htm",
       "years/2023/week_15.htm", "years/2023/week_16.htm",
       "years/2023/week_17.htm", "years/2023/week_18.htm"] ∧
    (∀ (getSoup : String → Except ScrapeError WeekPage) (l : List Dict),
      scrape_schedule getSoup = .ok l →
      ∀ d ∈ l, ∃ w, w ∈ weeks2023 ∧ ∃ page,
        getSoup (weekUrl 2023 w) = .ok page ∧
        ∃ s ∈ page.gameSummaries, ∃ g, parseSummary 2023 w s = .ok g ∧
          d = g.model_dump ∧ g.season = 2023 ∧ g.week = w) := by
  refine ⟨by decide, by decide, ?_⟩
  intro getSoup l h d hd
  obtain ⟨w, hw, page, hpage, s, hs, g, hg, rfl⟩ :=
    scrapeWeeks_provenance h d hd
  obtain ⟨_, _, _, _, _, _, _, _, _, _, _, _, _, _, _, _, _,
    hweek, hseason, _⟩ := parseSummary_ok_shape hg
  exact ⟨w, hw, page, hpage, s, hs, g, hg, rfl, hseason, hweek⟩

/-- C5 witness: the week-1 record of a full 18-week run is traced back to
the week-1 page with season 2023 and week 1. -/
theorem claim5_witness :
    ∃ w, w ∈ weeks2023 ∧ ∃ page,
      soupOneGame (weekUrl 2023 w) = .ok page ∧
      ∃ s ∈ page.gameSummaries, ∃ g, parseSummary 2023 w s = .ok g ∧
        Game.model_dump { gFinal24 with week := 1 } = g.model_dump ∧
        g.season = 2023 ∧ g.week = w :=
  claim5_weeks_and_season.2.2 soupOneGame games18 (by decide)
    (Game.model_dump { gFinal24 with week := 1 }) (by decide)

/-- C6: when every week page yields a record list, the run returns their
concatenation in ascending week order; within a week the records are in
one-to-one page order with the game-summary blocks; and a run that
returns at all has processed (fetched and parsed) all 18 weeks. -/
theorem claim6_ordering :
    (∀ (getSoup : String → Except ScrapeError WeekPage) (ls : Int → List Dict),
      (∀ w ∈ weeks2023, weekResult getSoup 2023 w = .ok (ls w)) →
      scrape_schedule getSoup = .ok ((weeks2023.map ls).flatten)) ∧
    (∀ (year week : Int) (page : WeekPage) (l : List Dict),
      scrapeWeek year week page = .ok l →
      List.Forall₂
        (fun s d => ∃ g, parseSummary year week s = .ok g ∧ d = g.model_dump)
        page.gameSummaries l) ∧
    (∀ (getSoup : String → Except ScrapeError WeekPage) (l : List Dict),
      scrape_schedule getSoup = .ok l →
      ∀ w ∈ weeks2023, ∃ lw, weekResult getSoup 2023 w = .ok lw) :=
  ⟨fun getSoup ls h => scrapeWeeks_flatten h,
   fun year week page l h => scrapeWeek_ok_forall₂ h,
   fun getSoup l h => scrapeWeeks_ok_weekResult h⟩

/-- C6 witness: on the constant one-game source the run returns the
week-ordered concatenation of the eighteen one-record week lists. -/
theorem claim6_witness :
    scrape_schedule soupOneGame = .ok ((weeks2023.map weekGames).flatten) :=
  claim6_ordering.1 soupOneGame weekGames (by decide)

/-- C10: every dumped record has exactly the eight keys week, season,
url, home_team, away_team, home_score, away_score, completed in that
order; hence every record list the extractor returns is uniform, and the
serializer's header line for any non-empty result is exactly that key
list. -/
theorem claim10_uniform_keys :
    (∀ g : Game, g.model_dump.map Prod.fst = gameKeys) ∧
    (∀ (getSoup : String → Except ScrapeError WeekPage) (l : List Dict),
      scrape_schedule getSoup = .ok l →
      ∀ d ∈ l, d.map Prod.fst = gameKeys) ∧
    (joinComma gameKeys =
      "week,season,url,home_team,away_team,home_score,away_score,completed") ∧
    (∀ (getSoup : String → Except ScrapeError WeekPage)
        (d0 : Dict) (ds : List Dict) (filename : String),
      scrape_schedule getSoup = .ok (d0 :: ds) →
      ∃ rest, save_to_csv filename (d0 :: ds) =
        .ok (filename, joinComma gameKeys ++ "\n" ++ rest)) := by
  have hmem : ∀ (getSoup : String → Except ScrapeError WeekPage)
      (l : List Dict), scrape_schedule getSoup = .ok l →
      ∀ d ∈ l, d.map Prod.fst = gameKeys := by
    intro getSoup l h d hd
    obtain ⟨w, hw, page, hpage, s, hs, g, hg, rfl⟩ :=
      scrapeWeeks_provenance h d hd
    rfl
  refine ⟨fun g => rfl, hmem, by decide, ?_⟩
  intro getSoup d0 ds filename h
  have h0 : d0.map Prod.fst = gameKeys :=
    hmem getSoup (d0 :: ds) h d0 (List.mem_cons_self _ _)
  refine ⟨writeRows ((d0 :: ds).map (fun d => d.map (fun kv => kv.2.pyStr))), ?_⟩
  simp only [save_to_csv]
  rw [h0]
  rfl

/-- C10 witness: a full run feeds the serializer uniformly keyed records
and the written header is the eight game keys. -/
theorem claim10_witness :
    ∃ rest, save_to_csv "2023_nfl_schedule.csv" games18 =
      .ok ("2023_nfl_schedule.csv", joinComma gameKeys ++ "\n" ++ rest) :=
  claim10_uniform_keys.2.2.2 soupOneGame
    (Game.model_dump { gFinal24 with week := 1 })
    (games18.drop 1) "2023_nfl_schedule.csv" (by decide)

end Scraper
